import Mathlib

/-!
Verification development for the einforma autónomos scraper
(src/main.py, src/scraper.py).

The repository holds two near-identical variants of one linear pipeline:
paginate a listing (collecting entity identifiers from anchor hrefs),
fetch one detail page per identifier and extract labelled fields, and
export the records to a spreadsheet with a CSV fallback.

`src/scraper.py` is the variant that loads and runs; `src/main.py` has a
broken top level (its `LISTING_URL` assignment is swallowed by the comment
on line 47, see the source-text model at the end of the definitions).
The functional definitions below are translated from `src/scraper.py`;
where `src/main.py` differs materially this is noted in the comments.

Network, HTML parsing and the standard library are modelled shallowly:
a listing environment maps a page number to either a persistent fetch
failure or the list of href strings of the anchors matched by the page
selector (`soup.select('a.sc-hAqSLs.gvIQtV, a.company-link')` in
scraper.py, an href regex in main.py); a detail environment maps an
identifier to either a failure or a flat document of nodes.
-/

/-! ## Python-level string helpers (modelling stdlib calls) -/

/-- Python `\s` on the ASCII range: space, tab, newline, carriage return,
vertical tab, form feed.  (Non-ASCII Unicode whitespace is not modelled;
the labels involved never contain it.) -/
def pyWs (c : Char) : Bool :=
  c = ' ' || c = '\t' || c = '\n' || c = '\r' || c = '\x0b' || c = '\x0c'

/-- Python `str.strip()` restricted to ASCII whitespace: drop whitespace
from both ends. -/
def pyStrip (s : String) : String :=
  ⟨((s.data.dropWhile pyWs).reverse.dropWhile pyWs).reverse⟩

/-- Substring test: `re.search` of a literal pattern, i.e. Python
`pat in s`. -/
def containsSub (pat s : String) : Bool :=
  s.data.tails.any (fun t => pat.data.isPrefixOf t)

/-- Split a character list at every occurrence of `c`
(Python `str.split(c)`). -/
def splitChar (c : Char) : List Char → List (List Char)
  | [] => [[]]
  | d :: rest =>
    if d = c then [] :: splitChar c rest
    else
      match splitChar c rest with
      | [] => [[d]]
      | h :: t => (d :: h) :: t

/-- Split a character list at the first occurrence of `c`
(Python `str.split(c, 1)`): the part before, and, when `c` occurs,
the part after. -/
def splitFirst (c : Char) : List Char → List Char × Option (List Char)
  | [] => ([], none)
  | d :: rest =>
    if d = c then ([], some rest)
    else
      let r := splitFirst c rest
      (d :: r.1, r.2)

/-! ## Identifier extraction from an anchor href

scraper.py lines 73-78 (identical in main.py lines 89-94):

    href = a.get('href', '')
    params = urllib.parse.parse_qs(urllib.parse.urlparse(href).query)
    cid = params.get('id', [None])[0]
    if cid:
        ids.append(cid)

`urlparse(href).query` is the text after the first `?` of the href with
the fragment (everything from the first `#`) removed.  `parse_qs` splits
the query on `&`, keeps only `name=value` fields with a non-empty value
(its default `keep_blank_values=False`), and groups values by name.
Percent-decoding performed by `parse_qs` is not modelled: identifiers are
opaque tokens and the claims do not depend on their spelling. -/

/-- `urllib.parse.urlparse(href).query` as a character list. -/
def urlQuery (href : String) : List Char :=
  let noFrag := (splitFirst '#' href.data).1
  match (splitFirst '?' noFrag).2 with
  | some q => q
  | none => []

/-- `urllib.parse.parse_qs` on a query string: the kept
(name, value) pairs in order. -/
def qsPairs (q : List Char) : List (List Char × List Char) :=
  (splitChar '&' q).filterMap fun nv =>
    if nv = [] then none
    else
      match splitFirst '=' nv with
      | (_, none) => none
      | (k, some v) => if v = [] then none else some (k, v)

/-- `params.get('id', [None])[0]`: the first value of the `id` query
parameter, when present. -/
def cidOf (href : String) : Option String :=
  match (qsPairs (urlQuery href)).filter (fun p => p.1 == ("id".data)) with
  | [] => none
  | p :: _ => some ⟨p.2⟩

/-- The `for a in links:` body of the paginator loop: the identifiers
appended for one page's matched links, in order (`if cid:` skips a missing
or empty identifier). -/
def extract_ids (links : List String) : List String :=
  links.filterMap fun href =>
    match cidOf href with
    | some cid => if cid = "" then none else some cid
    | none => none

/-! ## The listing paginator (scraper.py lines 56-82)

    def get_company_ids(delay=1, max_pages=None):
        ids = []
        page = 1
        while True:
            if max_pages and page > max_pages:
                break
            url = LISTING_URL.format(page=page)
            try:
                resp = get_with_retry(url)
            except Exception:
                print(...); break
            soup = BeautifulSoup(resp.text, 'html.parser')
            links = soup.select('a.sc-hAqSLs.gvIQtV, a.company-link')
            if not links:
                print(...); break
            for a in links: ... ids.append(cid)
            print(...)
            page += 1
            time.sleep(delay)
        return list(set(ids))

main.py lines 72-99 have the same loop shape (module-level MAX_PAGES, an
href-regex `find_all` selector, a different progress print); that module
never loads, see the source-text model below.

The listing environment `env` abstracts `get_with_retry` plus the link
selector: `env page` is `.error ()` when the fetch raises after
exhausting retries, and `.ok hrefs` with the matched anchors' href
strings otherwise.  The unbounded `while True` is modelled with fuel;
one unit of fuel per loop iteration.  `list(set(ids))` is modelled by
`List.dedup` (Python's set iteration order is unspecified; every claim
about the result is order-independent). -/

/-- Python truthiness of the guard `if max_pages and page > max_pages`:
`None` and `0` are falsy, so `max_pages = 0` disables the cap. -/
def capStop (max_pages : Option Nat) (page : Nat) : Bool :=
  match max_pages with
  | none => false
  | some m => m != 0 && page > m

/-- Result of a paginator run: the accumulated identifier list (before
the final `list(set(...))`) and the pages actually requested, in request
order. -/
structure PagRun where
  ids : List String
  requested : List Nat
deriving DecidableEq

/-- The `while True` loop of `get_company_ids`, one fuel unit per
iteration.  Exhausted fuel returns the state reached so far (it models
an unfinished run; every claim proved below holds for every fuel). -/
def get_company_ids_loop (env : Nat → Except Unit (List String))
    (max_pages : Option Nat) :
    Nat → Nat → List String → List Nat → List String × List Nat
  | 0, _, ids, reqs => (ids, reqs)
  | fuel + 1, page, ids, reqs =>
    if capStop max_pages page then (ids, reqs)
    else
      match env page with
      | .error _ => (ids, reqs ++ [page])
      | .ok links =>
        if links.isEmpty then (ids, reqs ++ [page])
        else
          get_company_ids_loop env max_pages fuel (page + 1)
            (ids ++ extract_ids links) (reqs ++ [page])

/-- `get_company_ids`: run the loop from page 1 and return
`list(set(ids))` together with the requested pages. -/
def get_company_ids (env : Nat → Except Unit (List String))
    (max_pages : Option Nat) (fuel : Nat) : PagRun :=
  let r := get_company_ids_loop env max_pages fuel 1 [] []
  ⟨r.1.dedup, r.2⟩

/-- Witness environment: every listing page yields one link. -/
def envA : Nat → Except Unit (List String) := fun _ => .ok ["/rapp/ficha/empresas?id=A1"]

/-- Witness environment: page 1 yields three links (with identifiers
`A1`, `A2`, `A1` — the second href carries `id=A2&id=A3` and `parse_qs`
keeps only the first `id` value), every later page yields no links. -/
def envB : Nat → Except Unit (List String) := fun p =>
  if p = 1 then .ok ["/rapp/ficha/empresas?id=A1", "/x?id=A2&id=A3", "/y?id=A1"]
  else .ok []

theorem loop_req_len_bound (env : Nat → Except Unit (List String)) (N : Nat) (hN : N ≠ 0) :
    ∀ fuel page ids reqs, (get_company_ids_loop env (some N) fuel page ids reqs).2.length
      ≤ reqs.length + (N + 1 - page) := by
  intro fuel
  induction fuel with
  | zero => intro page ids reqs; simp [get_company_ids_loop]
  | succ n ih =>
    intro page ids reqs
    simp only [get_company_ids_loop]
    rcases Nat.lt_or_ge N page with hgt | hle
    · have hcap : capStop (some N) page = true := by
        simp [capStop, bne_iff_ne, hN, hgt]
      simp [hcap]
    · have hcap : capStop (some N) page = false := by
        simp [capStop, bne_iff_ne]
        omega
      simp only [hcap, Bool.false_eq_true, if_false]
      cases henv : env page with
      | error e => simp; omega
      | ok links =>
        by_cases hl : links.isEmpty
        · simp [hl]; omega
        · simp only [hl, Bool.false_eq_true, if_false]
          have h := ih (page + 1) (ids ++ extract_ids links) (reqs ++ [page])
          simp [List.length_append] at h ⊢
          omega

theorem loop_req_le_cap (env : Nat → Except Unit (List String)) (N : Nat) (hN : N ≠ 0) :
    ∀ fuel page ids reqs, (∀ q ∈ reqs, q ≤ N) →
      ∀ p ∈ (get_company_ids_loop env (some N) fuel page ids reqs).2, p ≤ N := by
  intro fuel
  induction fuel with
  | zero =>
    intro page ids reqs hreqs p hp
    simp only [get_company_ids_loop] at hp
    exact hreqs p hp
  | succ n ih =>
    intro page ids reqs hreqs p hp
    simp only [get_company_ids_loop] at hp
    by_cases hcap : capStop (some N) page = true
    · simp only [hcap, if_true] at hp
      exact hreqs p hp
    · have hple : page ≤ N := by
        by_contra hgt
        exact hcap (by simp [capStop, bne_iff_ne, hN]; omega)
      simp only [Bool.not_eq_true] at hcap
      simp only [hcap, Bool.false_eq_true, if_false] at hp
      have hstep : ∀ q ∈ reqs ++ [page], q ≤ N := by
        intro q hq
        rcases List.mem_append.mp hq with hq' | hq'
        · exact hreqs q hq'
        · exact (List.mem_singleton.mp hq') ▸ hple
      revert hp
      cases henv : env page with
      | error e =>
        intro hp
        dsimp only at hp
        exact hstep p hp
      | ok links =>
        intro hp
        dsimp only at hp
        by_cases he : links.isEmpty
        · simp only [he, if_true] at hp
          exact hstep p hp
        · simp only [he, Bool.false_eq_true, if_false] at hp
          exact ih (page + 1) (ids ++ extract_ids links) (reqs ++ [page]) hstep p hp

/-- C1: for every positive configured page cap `N` (`max_pages = N`), the
paginator issues at most `N` listing-page requests, for every environment
and every fuel; moreover no requested page number exceeds `N` (the cap
check runs at the top of each iteration, before the page `N+1` request
could be issued). -/
theorem c1_max_pages_request_bound (env : Nat → Except Unit (List String))
    (N fuel : Nat) (hN : 0 < N) :
    (get_company_ids env (some N) fuel).requested.length ≤ N ∧
    ∀ p ∈ (get_company_ids env (some N) fuel).requested, p ≤ N := by
  constructor
  · have h := loop_req_len_bound env N (Nat.pos_iff_ne_zero.mp hN) fuel 1 [] []
    simpa [get_company_ids] using h
  · intro p hp
    exact loop_req_le_cap env N (Nat.pos_iff_ne_zero.mp hN) fuel 1 [] []
      (by intro q hq; simp at hq) p hp

theorem c1_witness :
    (get_company_ids envA (some 2) 10).requested.length ≤ 2 ∧ (1 : Nat) ≤ 2 :=
  ⟨(c1_max_pages_request_bound envA 2 10 (by decide)).1,
   (c1_max_pages_request_bound envA 2 10 (by decide)).2 1 (by decide)⟩

theorem loop_halt_after_empty (env : Nat → Except Unit (List String)) (mp : Option Nat) :
    ∀ fuel page ids reqs,
      (∀ q ∈ reqs, q < page) →
      (∀ q ∈ reqs, ∃ l, env q = .ok l ∧ l ≠ []) →
      ∀ p ∈ (get_company_ids_loop env mp fuel page ids reqs).2, env p = .ok [] →
        ∀ q ∈ (get_company_ids_loop env mp fuel page ids reqs).2, q ≤ p := by
  intro fuel
  induction fuel with
  | zero =>
    intro page ids reqs hlt hok p hp hpe q hq
    simp only [get_company_ids_loop] at hp hq
    obtain ⟨l, hl, hlne⟩ := hok p hp
    rw [hpe] at hl
    exact absurd (Except.ok.inj hl).symm hlne
  | succ n ih =>
    intro page ids reqs hlt hok p hp hpe q hq
    simp only [get_company_ids_loop] at hp hq
    by_cases hcap : capStop mp page = true
    · simp only [hcap, if_true] at hp hq
      obtain ⟨l, hl, hlne⟩ := hok p hp
      rw [hpe] at hl
      exact absurd (Except.ok.inj hl).symm hlne
    · simp only [Bool.not_eq_true] at hcap
      simp only [hcap, Bool.false_eq_true, if_false] at hp hq
      cases henv : env page with
      | error e =>
        rw [henv] at hp hq
        dsimp only at hp hq
        rcases List.mem_append.mp hp with hp' | hp'
        · obtain ⟨l, hl, hlne⟩ := hok p hp'
          rw [hpe] at hl
          exact absurd (Except.ok.inj hl).symm hlne
        · have hpp : p = page := List.mem_singleton.mp hp'
          rw [← hpp, hpe] at henv
          exact Except.noConfusion henv
      | ok links =>
        rw [henv] at hp hq
        dsimp only at hp hq
        by_cases hl : links.isEmpty
        · simp only [hl, if_true] at hp hq
          rcases List.mem_append.mp hp with hp' | hp'
          · obtain ⟨l, hle, hlne⟩ := hok p hp'
            rw [hpe] at hle
            exact absurd (Except.ok.inj hle).symm hlne
          · have hppage : p = page := List.mem_singleton.mp hp'
            rcases List.mem_append.mp hq with hq' | hq'
            · exact le_of_lt (hppage ▸ hlt q hq')
            · exact le_of_eq ((List.mem_singleton.mp hq').trans hppage.symm)
        · simp only [hl, Bool.false_eq_true, if_false] at hp hq
          refine ih (page + 1) (ids ++ extract_ids links) (reqs ++ [page]) ?_ ?_ p hp hpe q hq
          · intro r hr
            rcases List.mem_append.mp hr with hr' | hr'
            · exact Nat.lt_succ_of_lt (hlt r hr')
            · exact (List.mem_singleton.mp hr') ▸ Nat.lt_succ_self page
          · intro r hr
            rcases List.mem_append.mp hr with hr' | hr'
            · exact hok r hr'
            · refine ⟨links, (List.mem_singleton.mp hr') ▸ henv, ?_⟩
              simpa [List.isEmpty_iff] using hl

/-- C2: pagination halts at the first requested page whose document yields
zero matching links: every requested page number is at most that page, for
any configured `max_pages` (including none). -/
theorem c2_halts_on_empty_page (env : Nat → Except Unit (List String))
    (mp : Option Nat) (fuel p : Nat)
    (hp : p ∈ (get_company_ids env mp fuel).requested)
    (hempty : env p = .ok []) :
    ∀ q ∈ (get_company_ids env mp fuel).requested, q ≤ p := by
  have h := loop_halt_after_empty env mp fuel 1 [] []
    (by intro q hq; simp at hq) (by intro q hq; simp at hq)
  simp only [get_company_ids] at hp ⊢
  exact h p hp hempty

theorem c2_witness : (1 : Nat) ≤ 2 :=
  c2_halts_on_empty_page envB none 5 2 (by decide) rfl 1 (by decide)

theorem loop_ids_complete (env : Nat → Except Unit (List String)) (mp : Option Nat) :
    ∀ fuel page ids reqs,
      (∀ q ∈ reqs, ∀ l, env q = .ok l → ∀ c ∈ extract_ids l, c ∈ ids) →
      ∀ p ∈ (get_company_ids_loop env mp fuel page ids reqs).2, ∀ l, env p = .ok l →
        ∀ c ∈ extract_ids l, c ∈ (get_company_ids_loop env mp fuel page ids reqs).1 := by
  intro fuel
  induction fuel with
  | zero =>
    intro page ids reqs hacc p hp l hl c hc
    simp only [get_company_ids_loop] at hp ⊢
    exact hacc p hp l hl c hc
  | succ n ih =>
    intro page ids reqs hacc p hp l hl c hc
    simp only [get_company_ids_loop] at hp ⊢
    by_cases hcap : capStop mp page = true
    · simp only [hcap, if_true] at hp ⊢
      exact hacc p hp l hl c hc
    · simp only [Bool.not_eq_true] at hcap
      simp only [hcap, Bool.false_eq_true, if_false] at hp ⊢
      revert hp
      cases henv : env page with
      | error e =>
        intro hp
        dsimp only at hp ⊢
        rcases List.mem_append.mp hp with hp' | hp'
        · exact hacc p hp' l hl c hc
        · have hpp : p = page := List.mem_singleton.mp hp'
          rw [← hpp, hl] at henv
          exact Except.noConfusion henv
      | ok links =>
        intro hp
        dsimp only at hp ⊢
        by_cases he : links.isEmpty
        · simp only [he, if_true] at hp ⊢
          rcases List.mem_append.mp hp with hp' | hp'
          · exact hacc p hp' l hl c hc
          · have hpp : p = page := List.mem_singleton.mp hp'
            rw [← hpp, hl] at henv
            have hleq : l = links := Except.ok.inj henv
            have hnil : links = [] := List.isEmpty_iff.mp he
            rw [hleq, hnil] at hc
            simp [extract_ids] at hc
        · simp only [he, Bool.false_eq_true, if_false] at hp ⊢
          refine ih (page + 1) (ids ++ extract_ids links) (reqs ++ [page]) ?_ p hp l hl c hc
          intro q hq l' hl' c' hc'
          rcases List.mem_append.mp hq with hq' | hq'
          · exact List.mem_append_left _ (hacc q hq' l' hl' c' hc')
          · have hqp : q = page := List.mem_singleton.mp hq'
            rw [hqp, henv] at hl'
            have hleq : l' = links := (Except.ok.inj hl').symm
            rw [hleq] at hc'
            exact List.mem_append_right _ hc'

/-- C3: the identifier list returned by `get_company_ids` has no duplicate
elements, and every identifier extracted from the matching links of any
visited (requested and successfully fetched) page is present in it. -/
theorem c3_nodup_and_complete (env : Nat → Except Unit (List String))
    (mp : Option Nat) (fuel : Nat) :
    (get_company_ids env mp fuel).ids.Nodup ∧
    ∀ p ∈ (get_company_ids env mp fuel).requested, ∀ links, env p = .ok links →
      ∀ cid ∈ extract_ids links, cid ∈ (get_company_ids env mp fuel).ids := by
  constructor
  · exact List.nodup_dedup _
  · intro p hp links hl cid hc
    have h := loop_ids_complete env mp fuel 1 [] []
      (by intro q hq; simp at hq) p hp links hl cid hc
    simp only [get_company_ids]
    exact List.mem_dedup.mpr h

theorem c3_witness :
    (get_company_ids envB none 5).ids.Nodup ∧
    "A2" ∈ (get_company_ids envB none 5).ids :=
  ⟨(c3_nodup_and_complete envB none 5).1,
   (c3_nodup_and_complete envB none 5).2 1 (by decide)
     ["/rapp/ficha/empresas?id=A1", "/x?id=A2&id=A3", "/y?id=A1"] rfl "A2" (by decide)⟩

/-! ## Detail page model (scraper.py lines 84-109)

A detail document is modelled as its nodes in document order.  Only the
features the parser touches are kept: `<strong>` tags that carry a string
(BeautifulSoup's `text=` filter compares `tag.string`; a `strong` without
a string never matches and is modelled as `.other`), their
`.next_sibling` (a NavigableString `.str`, an element `.tag` — which has
no `.strip()` — or nothing), and `<a>` tags with the result of
`.get_text(strip=True)`. -/

/-- Decidable equality for `Except`, for concrete evaluation. -/
instance exceptDecEq {e a : Type} [DecidableEq e] [DecidableEq a] : DecidableEq (Except e a)
  | .ok x, .ok y => decidable_of_iff (x = y) (by simp)
  | .ok _, .error _ => isFalse (by simp)
  | .error _, .ok _ => isFalse (by simp)
  | .error x, .error y => decidable_of_iff (x = y) (by simp)

inductive Sib where
  | str (s : String)
  | tag
deriving DecidableEq

structure StrongNode where
  text : String
  sib : Option Sib
deriving DecidableEq

inductive DocNode where
  | strong (t : StrongNode)
  | anchor (text : String)
  | other
deriving DecidableEq

abbrev Doc := List DocNode

/-! ## Label patterns

The five `re.compile` patterns of `parse_company.get_field`
(scraper.py lines 97-102), with `re.search` semantics as used by the
BeautifulSoup `text=` filter.  `^CIF$` anchors the whole string (`$` also
matches before a final newline).  `\s*` is greedy; skipping the maximal
whitespace run is equivalent here because each second literal starts with
a non-whitespace character.  `pyWs` covers ASCII whitespace. -/

def matchHereWs (a b : List Char) (t : List Char) : Bool :=
  a.isPrefixOf t && b.isPrefixOf ((t.drop a.length).dropWhile pyWs)

def occursWithWs (a b : String) (s : String) : Bool :=
  s.data.tails.any (matchHereWs a.data b.data)

def matchesDenominacion (s : String) : Bool :=
  containsSub "Denominacion" s || containsSub "Denominación" s

def matchesCIF (s : String) : Bool :=
  s == "CIF" || s == "CIF\n"

def matchesDuns (s : String) : Bool :=
  occursWithWs "Número" "D-U-N-S" s

def matchesCnae (s : String) : Bool :=
  occursWithWs "Actividad" "CNAE" s

def matchesFormaJuridica (s : String) : Bool :=
  occursWithWs "Forma" "Jurídica" s || occursWithWs "Forma" "Juridica" s

/-- `soup.find('strong', text=f)`: the first `strong` node whose string
satisfies the filter, together with its position (needed by
`find_next`). -/
def find_strong_from (m : String → Bool) : Doc → Nat → Option (Nat × StrongNode)
  | [], _ => none
  | .strong t :: rest, i => if m t.text then some (i, t) else find_strong_from m rest (i + 1)
  | _ :: rest, i => find_strong_from m rest (i + 1)

/-- `tag.find_next('a')` on a flat document: the text of the first anchor
strictly after position `i`. -/
def find_next_a : Doc → Nat → Nat → Option String
  | [], _, _ => none
  | .anchor s :: rest, j, i => if j > i then some s else find_next_a rest (j + 1) i
  | _ :: rest, j, i => find_next_a rest (j + 1) i

/-- scraper.py lines 92-94:

    def get_field(label_regex):
        tag = soup.find('strong', text=re.compile(label_regex))
        return tag.next_sibling.strip() if tag else None

When the label is found, `tag.next_sibling.strip()` raises
AttributeError if the sibling is `None` (`None.strip()`) or an element
(`Tag` has no `.strip`); only a NavigableString sibling yields a value.
(main.py line 113 guards `if tag and tag.next_sibling`, avoiding the
`None` case but not the element case; that module never loads.) -/
def get_field (doc : Doc) (m : String → Bool) : Except Unit (Option String) :=
  match find_strong_from m doc 0 with
  | none => .ok none
  | some (_, t) =>
    match t.sib with
    | some (.str s) => .ok (some (pyStrip s))
    | some .tag => .error ()
    | none => .error ()

/-- A company record is a Python dict: an association list from field
name to value, in insertion order.  A missing key (the degenerate
failed-fetch record has only `id`) and a `None` value are distinguished,
as in Python. -/
abbrev Record := List (String × Option String)

/-- The value a record contributes to a table cell: `None`/NaN both for a
key whose value is `None` and for an absent key. -/
def cellValue (r : Record) (k : String) : Option String :=
  (r.lookup k).getD none

/-- `data['address'] = ...` on an existing key: replace the value in
place, keeping insertion order. -/
def set_val (r : Record) (k : String) (v : Option String) : Record :=
  r.map fun kv => if kv.1 == k then (kv.1, v) else kv

/-- scraper.py lines 104-107: find the `Domicilio Social` label (exact
string filter) and, when present, set `address` to the stripped text of
the next hyperlink (`None` when no hyperlink follows). -/
def with_address (data : Record) (doc : Doc) : Record :=
  match find_strong_from (fun s => s == "Domicilio Social") doc 0 with
  | none => data
  | some (i, _) =>
    match find_next_a doc 0 i with
    | some a => set_val data "address" (some a)
    | none => set_val data "address" none

/-- The body of `parse_company` after a successful fetch (scraper.py
lines 91-107): evaluate the five `get_field` calls in the order of the
dict literal (the first AttributeError aborts the record), then handle
the address.  The dict literal of scraper.py line 95-103 fixes the key
order `id, name, cif, duns, cnae, address, legal_form`. -/
def parse_company_core (doc : Doc) (cid : String) : Except Unit Record :=
  match get_field doc matchesDenominacion with
  | .error e => .error e
  | .ok name =>
  match get_field doc matchesCIF with
  | .error e => .error e
  | .ok cif =>
  match get_field doc matchesDuns with
  | .error e => .error e
  | .ok duns =>
  match get_field doc matchesCnae with
  | .error e => .error e
  | .ok cnae =>
  match get_field doc matchesFormaJuridica with
  | .error e => .error e
  | .ok legal =>
  .ok (with_address
    [("id", some cid), ("name", name), ("cif", cif), ("duns", duns),
     ("cnae", cnae), ("address", none), ("legal_form", legal)] doc)

/-- Outcome of one `parse_company` call: the returned record (or the
exception that propagated) and the number of `time.sleep(delay)` pauses
performed. -/
structure DetailResult where
  result : Except Unit Record
  sleeps : Nat
deriving DecidableEq

/-- scraper.py lines 84-109.  `fetch` abstracts `get_with_retry` on the
detail URL: `.error ()` models an exception after the retry budget.  On
fetch failure the function returns `\x7b'id': company_id\x7d` immediately —
before the `time.sleep(delay)` on line 108, so no pause happens; the
pause also does not happen when a `get_field` raises. -/
def parse_company (fetch : String → Except Unit Doc) (cid : String) : DetailResult :=
  match fetch cid with
  | .error _ => ⟨.ok [("id", some cid)], 0⟩
  | .ok doc =>
    match parse_company_core doc cid with
    | .error e => ⟨.error e, 0⟩
    | .ok data => ⟨.ok data, 1⟩

/-- The detail phase of `main` (scraper.py line 115):
`records = [parse_company(cid) for cid in company_ids]`.  The first
uncaught exception aborts the comprehension; the total sleep count of the
performed calls is accumulated. -/
def run_detail (fetch : String → Except Unit Doc) : List String → Except Unit (List Record) × Nat
  | [] => (.ok [], 0)
  | cid :: rest =>
    match parse_company fetch cid with
    | ⟨.error e, n⟩ => (.error e, n)
    | ⟨.ok r, n⟩ =>
      let rec' := run_detail fetch rest
      (rec'.1.map (r :: ·), n + rec'.2)

/-- Whether an `Except` result is a success. -/
def isOkE {a : Type} : Except Unit a → Bool
  | .ok _ => true
  | .error _ => false

/-- C5: when the detail fetch for an identifier fails after exhausting
retries, `parse_company` returns (never raises) the degenerate record
`\x7b'id': cid\x7d`: its `id` cell is the identifier and the six other field
cells are null, no delay pause happens, and the detail phase proceeds to
the remaining identifiers. -/
theorem c5_failed_fetch_degenerate (fetch : String → Except Unit Doc) (cid : String)
    (hf : fetch cid = .error ()) :
    (parse_company fetch cid).result = .ok [("id", some cid)] ∧
    (parse_company fetch cid).sleeps = 0 ∧
    cellValue [("id", some cid)] "id" = some cid ∧
    cellValue [("id", some cid)] "name" = none ∧
    cellValue [("id", some cid)] "cif" = none ∧
    cellValue [("id", some cid)] "duns" = none ∧
    cellValue [("id", some cid)] "cnae" = none ∧
    cellValue [("id", some cid)] "address" = none ∧
    cellValue [("id", some cid)] "legal_form" = none ∧
    ∀ rest, run_detail fetch (cid :: rest) =
      ((run_detail fetch rest).1.map (List.cons [("id", some cid)]),
       (run_detail fetch rest).2) := by
  refine ⟨by simp [parse_company, hf], by simp [parse_company, hf],
    rfl, rfl, rfl, rfl, rfl, rfl, rfl, ?_⟩
  intro rest
  simp only [run_detail, parse_company, hf]
  simp

/-- Witness environment: every detail fetch fails. -/
def envFailC5 : String → Except Unit Doc := fun _ => .error ()

theorem c5_witness :
    (parse_company envFailC5 "A1").result = .ok [("id", some "A1")] ∧
    cellValue [("id", some "A1")] "name" = none :=
  ⟨(c5_failed_fetch_degenerate envFailC5 "A1" rfl).1,
   (c5_failed_fetch_degenerate envFailC5 "A1" rfl).2.2.2.1⟩

/-- The cell value of the record parsed from `doc`, `none` when parsing
raised. -/
def core_cell (doc : Doc) (cid k : String) : Option String :=
  match parse_company_core doc cid with
  | .ok r => cellValue r k
  | .error _ => none

/-- C9 counterexample: the label match is not case-tolerant and only
partially diacritic-tolerant: `DENOMINACIÓN` (case difference only) does
not match the name pattern, and `Numero D-U-N-S` (missing accent on the
`u`) does not match the D-U-N-S pattern, so the adjacent value is not
read. -/
theorem c9_counterexample :
    matchesDenominacion "DENOMINACIÓN" = false ∧
    matchesDuns "Numero D-U-N-S" = false ∧
    get_field [DocNode.strong ⟨"DENOMINACIÓN", some (.str " ACME ")⟩] matchesDenominacion
      = .ok none := by decide

/-- C9 (amended): the label patterns are case-sensitive and tolerate
diacritics only at the two alternation points of the source regexes
(`Denominaci[oó]n`, `Jur[ií]dica`) while `\s*` makes the whitespace
between `Número`/`D-U-N-S` and `Actividad`/`CNAE` flexible; a matched
label's stripped next-sibling text is read as the value, and for the
address the text of the next hyperlink after the `Domicilio Social` label
is read. -/
theorem c9_amended :
    matchesDenominacion "Denominación" = true ∧
    matchesDenominacion "Denominacion" = true ∧
    matchesFormaJuridica "Forma Jurídica" = true ∧
    matchesFormaJuridica "Forma Juridica" = true ∧
    matchesDuns "Número D-U-N-S" = true ∧
    matchesDuns "Número   D-U-N-S" = true ∧
    matchesDuns "NúmeroD-U-N-S" = true ∧
    matchesCnae "Actividad CNAE" = true ∧
    matchesCIF "CIF" = true ∧
    matchesDenominacion "denominación" = false ∧
    matchesCIF "cif" = false ∧
    matchesFormaJuridica "FORMA JURÍDICA" = false ∧
    (∀ v, get_field [DocNode.strong ⟨"Denominación", some (.str v)⟩] matchesDenominacion
        = .ok (some (pyStrip v))) ∧
    (∀ v cid, core_cell [DocNode.strong ⟨"Domicilio Social", none⟩, DocNode.anchor v] cid
        "address" = some v) := by
  refine ⟨by decide, by decide, by decide, by decide, by decide, by decide, by decide,
    by decide, by decide, by decide, by decide, by decide, ?_, ?_⟩
  · intro v; rfl
  · intro v cid; rfl

/-- Counterexample environment for the delay-pause claim: every detail
fetch fails. -/
def envFailAll : String → Except Unit Doc := fun _ => .error ()

/-- C10 counterexample: a detail fetch that fails after exhausting retries
performs zero delay pauses (the `time.sleep(delay)` on scraper.py line 108
is only reached on the success path), so one processed identifier yields
zero pauses, not one. -/
theorem c10_counterexample :
    (run_detail envFailAll ["A1"]).1 = .ok [[("id", some "A1")]] ∧
    (run_detail envFailAll ["A1"]).2 = 0 ∧ (0 : Nat) ≠ 1 := by decide

/-- C10 (amended): a failed detail fetch performs no delay pause, and in a
detail phase in which no record parse raises, the total number of delay
pauses equals the number of identifiers whose fetch succeeded. -/
theorem c10_amended :
    (∀ (fetch : String → Except Unit Doc) (cid : String), fetch cid = .error () →
      (parse_company fetch cid).sleeps = 0) ∧
    (∀ (fetch : String → Except Unit Doc) (ids : List String),
      (∀ cid ∈ ids, isOkE (parse_company fetch cid).result = true) →
      (run_detail fetch ids).2 = (ids.filter fun cid => isOkE (fetch cid)).length) := by
  constructor
  · intro fetch cid hf
    simp [parse_company, hf]
  · intro fetch ids
    induction ids with
    | nil => intro _; rfl
    | cons cid rest ih =>
      intro h
      have hcid := h cid (List.mem_cons_self _ _)
      have hrest := ih fun c hc => h c (List.mem_cons_of_mem _ hc)
      simp only [run_detail, List.filter]
      cases hf : fetch cid with
      | error e =>
        have hpc : parse_company fetch cid = ⟨.ok [("id", some cid)], 0⟩ := by
          simp [parse_company, hf]
        rw [hpc]
        simp [hf, isOkE, hrest]
      | ok doc =>
        cases hcore : parse_company_core doc cid with
        | error e =>
          exfalso
          rw [parse_company, hf] at hcid
          dsimp only at hcid
          rw [hcore] at hcid
          simp [isOkE] at hcid
        | ok data =>
          have hpc : parse_company fetch cid = ⟨.ok data, 1⟩ := by
            simp [parse_company, hf, hcore]
          rw [hpc]
          simp [hf, isOkE, hrest]
          omega

/-- Witness environment: the fetch for `A` fails, any other fetch returns
an empty document (which parses to an all-null record). -/
def envMixAB : String → Except Unit Doc := fun s => if s = "A" then .error () else .ok []

theorem c10_witness :
    (parse_company envMixAB "A").sleeps = 0 ∧
    (run_detail envMixAB ["A", "B"]).2
      = (["A", "B"].filter fun cid => isOkE (envMixAB cid)).length ∧
    (["A", "B"].filter fun cid => isOkE (envMixAB cid)).length = 1 :=
  ⟨c10_amended.1 envMixAB "A" rfl,
   c10_amended.2 envMixAB ["A", "B"] (by decide),
   by decide⟩

/-- A string matched by at least one of the five field-label patterns. -/
def matches_any_label (s : String) : Bool :=
  matchesDenominacion s || matchesCIF s || matchesDuns s || matchesCnae s ||
    matchesFormaJuridica s

/-- Whether a label node has a NavigableString next sibling — the only
shape `tag.next_sibling.strip()` survives. -/
def has_str_sib (t : StrongNode) : Bool :=
  match t.sib with
  | some (.str _) => true
  | _ => false

/-- A document in which every field-label `strong` node has a text next
sibling; on such documents `parse_company` cannot raise. -/
def safe_doc (doc : Doc) : Bool :=
  doc.all fun nd =>
    match nd with
    | .strong t => !matches_any_label t.text || has_str_sib t
    | _ => true

/-- Counterexample environment: the detail page is a lone
`<strong>CIF</strong>` label with no next sibling. -/
def envCifNoSib : String → Except Unit Doc := fun _ => .ok [.strong ⟨"CIF", none⟩]

/-- C6 counterexample: a detail document consisting of a single
`<strong>CIF</strong>` label with no next sibling makes `parse_company`
raise (scraper.py line 94 calls `tag.next_sibling.strip()` guarded only by
`if tag`, so `None.strip()` raises AttributeError), refuting the claim
that no page structure causes the record to fail. -/
theorem c6_counterexample :
    (parse_company envCifNoSib "X").result = .error () ∧
    (parse_company envCifNoSib "X").sleeps = 0 := by decide

/-- A found label node satisfies the filter and belongs to the
document. -/
theorem find_strong_from_spec (m : String → Bool) :
    ∀ (doc : Doc) (i j : Nat) (t : StrongNode),
      find_strong_from m doc i = some (j, t) → m t.text = true ∧ DocNode.strong t ∈ doc := by
  intro doc
  induction doc with
  | nil => intro i j t h; simp [find_strong_from] at h
  | cons nd rest ih =>
    intro i j t h
    cases nd with
    | strong t' =>
      simp only [find_strong_from] at h
      cases hm : m t'.text with
      | true =>
        rw [hm] at h
        simp only [if_true] at h
        simp only [Option.some.injEq, Prod.mk.injEq] at h
        obtain ⟨-, rfl⟩ := h
        exact ⟨hm, List.mem_cons_self _ _⟩
      | false =>
        rw [hm] at h
        simp only [Bool.false_eq_true, if_false] at h
        exact (ih _ _ _ h).imp id (List.mem_cons_of_mem _)
    | anchor s =>
      simp only [find_strong_from] at h
      exact (ih _ _ _ h).imp id (List.mem_cons_of_mem _)
    | other =>
      simp only [find_strong_from] at h
      exact (ih _ _ _ h).imp id (List.mem_cons_of_mem _)

/-- On a safe document, `get_field` returns a value rather than raising:
`none` when the label is absent, the stripped sibling text when
present. -/
theorem get_field_safe (doc : Doc) (m : String → Bool)
    (hsub : ∀ s, m s = true → matches_any_label s = true)
    (hs : safe_doc doc = true) :
    ∃ v, get_field doc m = .ok v ∧
      (find_strong_from m doc 0 = none → v = none) ∧
      (∀ i t s, find_strong_from m doc 0 = some (i, t) → t.sib = some (.str s) →
        v = some (pyStrip s)) := by
  cases hfind : find_strong_from m doc 0 with
  | none =>
    refine ⟨none, by simp [get_field, hfind], fun _ => rfl, ?_⟩
    intro i t s h
    exact Option.noConfusion h
  | some p =>
    obtain ⟨i, t⟩ := p
    obtain ⟨hmt, hmem⟩ := find_strong_from_spec m doc 0 i t hfind
    have hsafe := (List.all_eq_true.mp hs) _ hmem
    simp only [hsub t.text hmt, Bool.not_true, Bool.false_or] at hsafe
    cases hsib : t.sib with
    | none => rw [has_str_sib, hsib] at hsafe; exact Bool.noConfusion hsafe
    | some sib =>
      cases sib with
      | tag => rw [has_str_sib, hsib] at hsafe; exact Bool.noConfusion hsafe
      | str s =>
        refine ⟨some (pyStrip s), ?_, ?_, ?_⟩
        · simp [get_field, hfind, hsib]
        · intro h; exact Option.noConfusion h
        · intro i' t' s' h hsib'
          simp only [Option.some.injEq, Prod.mk.injEq] at h
          obtain ⟨-, ht⟩ := h
          subst ht
          rw [hsib] at hsib'
          simp only [Option.some.injEq, Sib.str.injEq] at hsib'
          rw [hsib']

/-- Cell values of the full record shape: the address step touches only
the `address` key, and without a `Domicilio Social` label the address
stays null. -/
theorem with_address_cells (doc : Doc) (cid : String) (vn vc vd vca vl : Option String) :
    cellValue (with_address [("id", some cid), ("name", vn), ("cif", vc), ("duns", vd),
      ("cnae", vca), ("address", none), ("legal_form", vl)] doc) "id" = some cid ∧
    cellValue (with_address [("id", some cid), ("name", vn), ("cif", vc), ("duns", vd),
      ("cnae", vca), ("address", none), ("legal_form", vl)] doc) "name" = vn ∧
    cellValue (with_address [("id", some cid), ("name", vn), ("cif", vc), ("duns", vd),
      ("cnae", vca), ("address", none), ("legal_form", vl)] doc) "cif" = vc ∧
    cellValue (with_address [("id", some cid), ("name", vn), ("cif", vc), ("duns", vd),
      ("cnae", vca), ("address", none), ("legal_form", vl)] doc) "duns" = vd ∧
    cellValue (with_address [("id", some cid), ("name", vn), ("cif", vc), ("duns", vd),
      ("cnae", vca), ("address", none), ("legal_form", vl)] doc) "cnae" = vca ∧
    cellValue (with_address [("id", some cid), ("name", vn), ("cif", vc), ("duns", vd),
      ("cnae", vca), ("address", none), ("legal_form", vl)] doc) "legal_form" = vl ∧
    (find_strong_from (fun s => s == "Domicilio Social") doc 0 = none →
      cellValue (with_address [("id", some cid), ("name", vn), ("cif", vc), ("duns", vd),
        ("cnae", vca), ("address", none), ("legal_form", vl)] doc) "address" = none) := by
  unfold with_address
  cases hdom : find_strong_from (fun s => s == "Domicilio Social") doc 0 with
  | none => exact ⟨rfl, rfl, rfl, rfl, rfl, rfl, fun _ => rfl⟩
  | some p =>
    obtain ⟨i, t⟩ := p
    dsimp only
    cases hna : find_next_a doc 0 i with
    | none => exact ⟨rfl, rfl, rfl, rfl, rfl, rfl, fun h => Option.noConfusion h⟩
    | some a => exact ⟨rfl, rfl, rfl, rfl, rfl, rfl, fun h => Option.noConfusion h⟩

/-- C6 (amended): for every detail document in which each `strong` label
matched by one of the five field patterns has a text next sibling,
`parse_company_core` returns a record without raising; any field whose
label is not found gets a null value (in particular a document without the
`Domicilio Social` label yields a null address), and a found label's
stripped sibling text populates its field. -/
theorem c6_amended (doc : Doc) (cid : String) (hs : safe_doc doc = true) :
    isOkE (parse_company_core doc cid) = true ∧
    (find_strong_from matchesDenominacion doc 0 = none → core_cell doc cid "name" = none) ∧
    (find_strong_from matchesCIF doc 0 = none → core_cell doc cid "cif" = none) ∧
    (find_strong_from matchesDuns doc 0 = none → core_cell doc cid "duns" = none) ∧
    (find_strong_from matchesCnae doc 0 = none → core_cell doc cid "cnae" = none) ∧
    (find_strong_from matchesFormaJuridica doc 0 = none →
      core_cell doc cid "legal_form" = none) ∧
    (find_strong_from (fun s => s == "Domicilio Social") doc 0 = none →
      core_cell doc cid "address" = none) ∧
    (∀ i t s, find_strong_from matchesDenominacion doc 0 = some (i, t) →
      t.sib = some (Sib.str s) → core_cell doc cid "name" = some (pyStrip s)) ∧
    (∀ i t s, find_strong_from matchesCIF doc 0 = some (i, t) →
      t.sib = some (Sib.str s) → core_cell doc cid "cif" = some (pyStrip s)) := by
  obtain ⟨vn, hgn, hnn, hvn⟩ := get_field_safe doc matchesDenominacion
    (fun s h => by simp [matches_any_label, h]) hs
  obtain ⟨vc, hgc, hcn, hvc⟩ := get_field_safe doc matchesCIF
    (fun s h => by simp [matches_any_label, h]) hs
  obtain ⟨vd, hgd, hdn, hvd⟩ := get_field_safe doc matchesDuns
    (fun s h => by simp [matches_any_label, h]) hs
  obtain ⟨vca, hga, han, hva⟩ := get_field_safe doc matchesCnae
    (fun s h => by simp [matches_any_label, h]) hs
  obtain ⟨vl, hgl, hln, hvl⟩ := get_field_safe doc matchesFormaJuridica
    (fun s h => by simp [matches_any_label, h]) hs
  have hcore : parse_company_core doc cid =
      .ok (with_address [("id", some cid), ("name", vn), ("cif", vc), ("duns", vd),
        ("cnae", vca), ("address", none), ("legal_form", vl)] doc) := by
    simp only [parse_company_core, hgn, hgc, hgd, hga, hgl]
  have hcc : ∀ k, core_cell doc cid k =
      cellValue (with_address [("id", some cid), ("name", vn), ("cif", vc), ("duns", vd),
        ("cnae", vca), ("address", none), ("legal_form", vl)] doc) k := by
    intro k
    simp only [core_cell, hcore]
  have hcells := with_address_cells doc cid vn vc vd vca vl
  refine ⟨by simp [hcore, isOkE], ?_, ?_, ?_, ?_, ?_, ?_, ?_, ?_⟩
  · intro hf; rw [hcc, hcells.2.1]; exact hnn hf
  · intro hf; rw [hcc, hcells.2.2.1]; exact hcn hf
  · intro hf; rw [hcc, hcells.2.2.2.1]; exact hdn hf
  · intro hf; rw [hcc, hcells.2.2.2.2.1]; exact han hf
  · intro hf; rw [hcc, hcells.2.2.2.2.2.1]; exact hln hf
  · intro hf; rw [hcc]; exact hcells.2.2.2.2.2.2 hf
  · intro i t s hfind hsib; rw [hcc, hcells.2.1]; exact hvn i t s hfind hsib
  · intro i t s hfind hsib; rw [hcc, hcells.2.2.1]; exact hvc i t s hfind hsib

theorem c6_witness :
    isOkE (parse_company_core [DocNode.strong ⟨"CIF", some (Sib.str " B123 ")⟩] "X") = true ∧
    core_cell [DocNode.strong ⟨"CIF", some (Sib.str " B123 ")⟩] "X" "name" = none ∧
    core_cell [DocNode.strong ⟨"CIF", some (Sib.str " B123 ")⟩] "X" "address" = none ∧
    core_cell [DocNode.strong ⟨"CIF", some (Sib.str " B123 ")⟩] "X" "cif"
      = some (pyStrip " B123 ") :=
  ⟨(c6_amended [DocNode.strong ⟨"CIF", some (Sib.str " B123 ")⟩] "X" (by decide)).1,
   (c6_amended [DocNode.strong ⟨"CIF", some (Sib.str " B123 ")⟩] "X" (by decide)).2.1 rfl,
   (c6_amended [DocNode.strong ⟨"CIF", some (Sib.str " B123 ")⟩] "X"
     (by decide)).2.2.2.2.2.2.1 rfl,
   (c6_amended [DocNode.strong ⟨"CIF", some (Sib.str " B123 ")⟩] "X"
     (by decide)).2.2.2.2.2.2.2.2 0 ⟨"CIF", some (Sib.str " B123 ")⟩ " B123 " rfl rfl⟩

/-! ## Exporter (scraper.py lines 111-125)

`pd.DataFrame(records)` forms columns from the record keys in order of
first appearance; a record missing a column contributes NaN (`none`).
`df.to_excel(..., index=False)` and `df.to_csv(..., index=False)` both
serialize this table: a header row of column names and one data row per
record.  `pd.ExcelWriter(..., engine='xlsxwriter')` raises
ModuleNotFoundError (an ImportError) when the engine is missing; only
`(ModuleNotFoundError, ImportError)` is caught (scraper.py line 122), so
any other failure — e.g. an OSError while writing — propagates.
(main.py's copy of this block uses a bare `except:`, but that module
never loads.) -/

/-- Fold one record's keys into the column list, keeping first-appearance
order. -/
def add_keys (cols ks : List String) : List String :=
  ks.foldl (fun cs k => if cs.contains k then cs else cs ++ [k]) cols

/-- The DataFrame's columns: record keys in order of first appearance. -/
def df_columns (records : List Record) : List String :=
  records.foldl (fun cols r => add_keys cols (r.map Prod.fst)) []

/-- The data rows of the exported table: one row per record, one cell per
column. -/
def csv_rows (records : List Record) : List (List (Option String)) :=
  records.map fun r => (df_columns records).map (cellValue r)

/-- The seven column names, in the order fixed by the dict literal of a
successfully parsed record. -/
def full_cols : List String := ["id", "name", "cif", "duns", "cnae", "address", "legal_form"]

/-- Counterexample environment: the detail fetch fails, producing the
degenerate one-key record. -/
def envFailC7 : String → Except Unit Doc := fun _ => .error ()

/-- C7 counterexample: a record list consisting of one degenerate record
(the exact output of `parse_company` for a failed fetch) yields a
one-column table (`['id']`), not the claimed fixed seven columns. -/
theorem c7_counterexample :
    (parse_company envFailC7 "A1").result = .ok [("id", some "A1")] ∧
    df_columns [[("id", some "A1")]] = ["id"] ∧
    (df_columns [[("id", some "A1")]]).length = 1 ∧ (1 : Nat) ≠ 7 := by decide

/-- Once the column fold holds all seven columns, further records (full
or degenerate) leave it unchanged. -/
theorem df_fold_stay_full (records : List Record)
    (hshape : ∀ r ∈ records, r.map Prod.fst = full_cols ∨ r.map Prod.fst = ["id"]) :
    records.foldl (fun cols r => add_keys cols (r.map Prod.fst)) full_cols = full_cols := by
  induction records with
  | nil => rfl
  | cons r rest ih =>
    have hr := hshape r (List.mem_cons_self _ _)
    have hrest := ih fun r' h => hshape r' (List.mem_cons_of_mem _ h)
    simp only [List.foldl_cons]
    rcases hr with hr | hr
    · rw [hr]
      have : add_keys full_cols full_cols = full_cols := by decide
      rw [this]; exact hrest
    · rw [hr]
      have : add_keys full_cols ["id"] = full_cols := by decide
      rw [this]; exact hrest

/-- From an empty or `id`-only column state, a record list containing a
full record drives the column fold to the seven fixed columns. -/
theorem df_fold_reach_full (records : List Record) :
    ∀ cols, (cols = [] ∨ cols = ["id"]) →
    (∀ r ∈ records, r.map Prod.fst = full_cols ∨ r.map Prod.fst = ["id"]) →
    (∃ r ∈ records, r.map Prod.fst = full_cols) →
    records.foldl (fun cols r => add_keys cols (r.map Prod.fst)) cols = full_cols := by
  induction records with
  | nil => intro cols _ _ hex; simp at hex
  | cons r rest ih =>
    intro cols hcols hshape hex
    have hr := hshape r (List.mem_cons_self _ _)
    simp only [List.foldl_cons]
    rcases hr with hr | hr
    · rw [hr]
      have hak : add_keys cols full_cols = full_cols := by
        rcases hcols with h | h <;> rw [h] <;> decide
      rw [hak]
      exact df_fold_stay_full rest fun r' h => hshape r' (List.mem_cons_of_mem _ h)
    · rw [hr]
      have hak : add_keys cols ["id"] = ["id"] := by
        rcases hcols with h | h <;> rw [h] <;> decide
      rw [hak]
      refine ih ["id"] (Or.inr rfl) (fun r' h => hshape r' (List.mem_cons_of_mem _ h)) ?_
      obtain ⟨rf, hrf, hrfull⟩ := hex
      rcases List.mem_cons.mp hrf with heq | hmem
      · exfalso
        rw [heq, hr] at hrfull
        exact absurd hrfull (by decide)
      · exact ⟨rf, hmem, hrfull⟩

/-- C7 (amended): for every list of parsed records (each either a full
seven-field record or a degenerate failed-fetch record) containing at
least one full record, the exported table has exactly the seven columns
`id, name, cif, duns, cnae, address, legal_form` in that order and exactly
one data row per record (plus the header row `df_columns records`). -/
theorem c7_amended (records : List Record)
    (hshape : ∀ r ∈ records, r.map Prod.fst = full_cols ∨ r.map Prod.fst = ["id"])
    (hfull : ∃ r ∈ records, r.map Prod.fst = full_cols) :
    df_columns records = full_cols ∧
    (csv_rows records).length = records.length ∧
    ∀ row ∈ csv_rows records, row.length = 7 := by
  have hcols : df_columns records = full_cols :=
    df_fold_reach_full records [] (Or.inl rfl) hshape hfull
  refine ⟨hcols, by simp [csv_rows], ?_⟩
  intro row hrow
  simp only [csv_rows, List.mem_map] at hrow
  obtain ⟨r, -, hmap⟩ := hrow
  rw [← hmap, hcols]
  simp [full_cols]

/-- Witness records: one degenerate, one full. -/
def recordsW : List Record :=
  [[("id", some "A1")],
   [("id", some "B"), ("name", some "N"), ("cif", none), ("duns", none),
    ("cnae", none), ("address", none), ("legal_form", none)]]

theorem c7_witness :
    df_columns recordsW = full_cols ∧ (csv_rows recordsW).length = recordsW.length :=
  ⟨(c7_amended recordsW (by decide) (by decide)).1,
   (c7_amended recordsW (by decide) (by decide)).2.1⟩

/-- Observable outcome of the export block of `main`: a spreadsheet, a
fallback CSV (each with the table it serializes), or a propagated
exception. -/
inductive ExportOutcome where
  | excel (cols : List String) (rows : List (List (Option String)))
  | csv (cols : List String) (rows : List (List (Option String)))
  | raised
deriving DecidableEq

/-- scraper.py lines 117-125.  `engine_available` models whether the
`xlsxwriter` import inside `pd.ExcelWriter` succeeds; `write_ok` models
the spreadsheet write itself.  A missing engine raises
ModuleNotFoundError, is caught, and `df.to_csv` runs; a write failure
raises an exception not in `(ModuleNotFoundError, ImportError)` and
propagates. -/
def export_records (engine_available write_ok : Bool) (records : List Record) :
    ExportOutcome :=
  if engine_available then
    if write_ok then .excel (df_columns records) (csv_rows records)
    else .raised
  else .csv (df_columns records) (csv_rows records)

/-- Whether the run ended in the CSV fallback. -/
def is_csv : ExportOutcome → Bool
  | .csv _ _ => true
  | _ => false

/-- C8: the CSV fallback fires if and only if the spreadsheet engine is
unavailable; a write error during spreadsheet export does not fall back
(the exception propagates), and the fallback CSV carries exactly the
row/column content the spreadsheet branch would have written. -/
theorem c8_fallback_iff_engine_missing (avail ok : Bool) (records : List Record) :
    (is_csv (export_records avail ok records) = true ↔ avail = false) ∧
    (avail = false →
      export_records avail ok records = .csv (df_columns records) (csv_rows records)) ∧
    (avail = true → ok = false → export_records avail ok records = .raised) ∧
    (avail = true → ok = true →
      export_records avail ok records = .excel (df_columns records) (csv_rows records)) := by
  cases avail <;> cases ok <;> simp [export_records, is_csv]

theorem c8_witness :
    export_records false true [] = .csv (df_columns []) (csv_rows []) ∧
    export_records true false [] = .raised :=
  ⟨(c8_fallback_iff_engine_missing false true []).2.1 rfl,
   (c8_fallback_iff_engine_missing true false []).2.2.1 rfl rfl⟩

/-! ## Source text of src/main.py, lines 45-51

The claim C4 is about the program text itself.  Lines 45-51 of
src/main.py are embedded verbatim below (`\x7b`/`\x7d` are the literal
braces of the Python format strings).  Line 45 is a complete balanced
statement in column 0, so line 46 starts at top level with bracket
depth 0.  CPython tokenizes a line whose first character is `#` as a
comment contributing no tokens, and reports an IndentationError for an
indented line at top level outside any bracket continuation; the scanner
below models exactly that rule, tracking parenthesis depth outside
double-quoted string literals (the only string form these lines use). -/

/-- Whether the first character of the line is `c`. -/
def firstCharIs (c : Char) (s : String) : Bool :=
  match s.data with
  | [] => false
  | d :: _ => d = c

/-- A CPython comment line (first character `#`). -/
def isCommentLine (s : String) : Bool := firstCharIs '#' s

/-- A line starting with indentation. -/
def startsIndented (s : String) : Bool := firstCharIs ' ' s || firstCharIs '\t' s

/-- Net parenthesis count of a line, ignoring characters inside
double-quoted string literals. -/
def net_parens_aux : List Char → Bool → Int
  | [], _ => 0
  | c :: rest, inStr =>
    if c = '"' then net_parens_aux rest (!inStr)
    else if inStr then net_parens_aux rest inStr
    else (if c = '(' then 1 else if c = ')' then -1 else 0) + net_parens_aux rest inStr

def net_parens (s : String) : Int := net_parens_aux s.data false

/-- Scan top-level lines keeping the bracket-continuation depth: the
index of the first indented line encountered at depth 0 (CPython's
IndentationError), if any.  Comment and blank lines contribute
nothing. -/
def first_indent_error_from : List String → Nat → Int → Option Nat
  | [], _, _ => none
  | l :: ls, i, depth =>
    if isCommentLine l then first_indent_error_from ls (i + 1) depth
    else if l = "" then first_indent_error_from ls (i + 1) depth
    else if depth = 0 ∧ startsIndented l = true then some i
    else first_indent_error_from ls (i + 1) (depth + net_parens l)

def main_py_line_45 : String := "session = create_session()"
def main_py_line_46 : String := ""
def main_py_line_47 : String := "# URLs base\\NLISTING_URL = ("
def main_py_line_48 : String :=
  "    \"https://www.einforma.com/rapp/resultados-busqueda/autonomos\""
def main_py_line_49 : String := "    \"?type=AUTONOMOS&page=\x7bpage\x7d\""
def main_py_line_50 : String := ")"
def main_py_line_51 : String :=
  "DETAIL_URL = \"https://www.einforma.com/rapp/ficha/empresas?id=\x7bid\x7d\""

def main_py_lines_45_51 : List String :=
  [main_py_line_45, main_py_line_46, main_py_line_47, main_py_line_48,
   main_py_line_49, main_py_line_50, main_py_line_51]

/-- C4: in src/main.py line 47 is a comment that swallows the
`LISTING_URL = (` assignment, no line of the URL block binds
`LISTING_URL` at top level, and the line scanner finds the indented
top-level line 48 (index 3 of the embedded block) at bracket depth 0,
which is the IndentationError that prevents the module from loading —
so this variant's paginator can never issue a listing request. -/
theorem c4_listing_url_swallowed :
    isCommentLine main_py_line_47 = true ∧
    containsSub "LISTING_URL = (" main_py_line_47 = true ∧
    first_indent_error_from main_py_lines_45_51 0 0 = some 3 ∧
    main_py_lines_45_51.all
      (fun l => !(("LISTING_URL".data).isPrefixOf l.data)) = true := by
  refine ⟨by decide, by decide, ?_, by decide⟩
  decide
